import Mathlib

/-
Shallow embedding of the endpoint-lifecycle core of the `network` package
(`network/endpoint.go`): the endpoint record, its read-only EndpointInfo
projection, the per-network endpoint directory (Go `map[string]*endpoint`,
modelled as an association list), and the operations newEndpoint,
deleteEndpoint, getEndpoint, getEndpointByPOD, attach, detach,
updateEndpoint, GetPodNameWithoutSuffix, IsEndpointStateIncomplete,
validateEndpoint and validateEndpoints.

Platform-specific collaborator calls (newEndpointImpl, deleteEndpointImpl,
updateEndpointImpl) are out of scope of this core and are passed in as
abstract functions returning success or an error.  Go byte slices
(net.IP, net.HardwareAddr) are modelled as lists of naturals; external
leaf types from other packages (policy.Policy, cns-response metadata,
subnet info, the free-form Data bag) are modelled as opaque string data,
since no operation of this file inspects them.
-/

namespace ACN

/-- Go `net.IP` (a byte slice). -/
abbrev IP := List Nat

/-- Go `net.IPMask` (a byte slice). -/
abbrev IPMask := List Nat

/-- Go `net.HardwareAddr` (a byte slice). -/
abbrev HardwareAddr := List Nat

/-- Go `net.IPNet`: an IP with a mask. -/
structure IPNet where
  ip : IP := []
  mask : IPMask := []
deriving DecidableEq

/-- DNS configuration of the network package (declared outside endpoint.go).
Modelled from the spec: "DNS configuration (servers, search domains, options)". -/
structure DNSInfo where
  Suffix : String := ""
  Servers : List String := []
  Options : List String := []
deriving DecidableEq

/-- `cns.NICType` is a string-typed enumeration (compared against "" in
`validateEndpoint`). -/
abbrev NICType := String

/-- `policy.Policy` is opaque to this core; modelled as its raw data. -/
abbrev Policy := String

/-- `policy.NATInfo` is opaque to this core. -/
abbrev NATInfo := String

/-- Subnet information of the owning network (declared outside endpoint.go),
opaque to this core. -/
abbrev SubnetInfo := String

/-- RouteInfo contains information about an IP route (endpoint.go). -/
structure RouteInfo where
  Dst : IPNet := {}
  Src : IP := []
  Gw : IP := []
  Protocol : Int := 0
  DevName : String := ""
  Scope : Int := 0
  Priority : Int := 0
  Table : Int := 0
deriving DecidableEq

/-- IPConfig of a secondary interface (endpoint.go). -/
structure IPConfig where
  Address : IPNet := {}
  Gateway : IP := []
deriving DecidableEq

/-- InterfaceInfo contains information for secondary interfaces (endpoint.go).
The `NCResponse` allocation-response metadata is opaque to this core. -/
structure InterfaceInfo where
  Name : String := ""
  MacAddress : HardwareAddr := []
  IPConfigs : List IPConfig := []
  Routes : List RouteInfo := []
  DNS : DNSInfo := {}
  NICType : NICType := ""
  SkipDefaultRoutes : Bool := false
  HostSubnetPrefix : IPNet := {}
  NCResponse : Option String := none
  PnPID : String := ""
  EndpointPolicies : List Policy := []
deriving DecidableEq

/-- Endpoint represents a container network interface (endpoint.go).
Field defaults are the Go zero values. -/
structure endpoint where
  Id : String := ""
  HnsId : String := ""
  HNSNetworkID : String := ""
  SandboxKey : String := ""
  IfName : String := ""
  HostIfName : String := ""
  MacAddress : HardwareAddr := []
  InfraVnetIP : IPNet := {}
  LocalIP : String := ""
  IPAddresses : List IPNet := []
  Gateways : List IP := []
  DNS : DNSInfo := {}
  Routes : List RouteInfo := []
  VlanID : Int := 0
  EnableSnatOnHost : Bool := false
  EnableInfraVnet : Bool := false
  EnableMultitenancy : Bool := false
  AllowInboundFromHostToNC : Bool := false
  AllowInboundFromNCToHost : Bool := false
  NetworkContainerID : String := ""
  NetworkNameSpace : String := ""
  ContainerID : String := ""
  PODName : String := ""
  PODNameSpace : String := ""
  InfraVnetAddressSpace : String := ""
  NetNs : String := ""
  SecondaryInterfaces : List (String × InterfaceInfo) := []
  NICType : NICType := ""
deriving DecidableEq

/-- EndpointInfo contains read-only information about an endpoint
(endpoint.go).  The free-form `Data` and `Options` bags hold opaque values. -/
structure EndpointInfo where
  EndpointID : String := ""
  ContainerID : String := ""
  NetNsPath : String := ""
  IfName : String := ""
  SandboxKey : String := ""
  IfIndex : Int := 0
  MacAddress : HardwareAddr := []
  EndpointDNS : DNSInfo := {}
  IPAddresses : List IPNet := []
  IPsToRouteViaHost : List String := []
  InfraVnetIP : IPNet := {}
  Routes : List RouteInfo := []
  EndpointPolicies : List Policy := []
  NetworkPolicies : List Policy := []
  Gateways : List IP := []
  EnableSnatOnHost : Bool := false
  EnableInfraVnet : Bool := false
  EnableMultiTenancy : Bool := false
  EnableSnatForDns : Bool := false
  AllowInboundFromHostToNC : Bool := false
  AllowInboundFromNCToHost : Bool := false
  NetworkContainerID : String := ""
  PODName : String := ""
  PODNameSpace : String := ""
  Data : List (String × String) := []
  InfraVnetAddressSpace : String := ""
  SkipHotAttachEp : Bool := false
  IPV6Mode : String := ""
  VnetCidrs : String := ""
  ServiceCidrs : String := ""
  NATInfo : List NATInfo := []
  NICType : NICType := ""
  SkipDefaultRoutes : Bool := false
  HNSEndpointID : String := ""
  HNSNetworkID : String := ""
  HostIfName : String := ""
  MasterIfName : String := ""
  AdapterName : String := ""
  NetworkID : String := ""
  Mode : String := ""
  Subnets : List SubnetInfo := []
  BridgeName : String := ""
  NetNs : String := ""
  Options : List (String × String) := []
  DisableHairpinOnHostInterface : Bool := false
  IsIPv6Enabled : Bool := false
  HostSubnetPrefix : String := ""
  PnPID : String := ""
deriving DecidableEq

/-- The owning network (network.go, as used by endpoint.go): its identifier
and its endpoint directory, Go `map[string]*endpoint` keyed by endpoint ID,
modelled as an association list. -/
structure network where
  Id : String := ""
  Endpoints : List (String × endpoint) := []
deriving DecidableEq

/-- Error taxonomy of the endpoint-lifecycle core: the sentinel errors of the
network package (errEndpointNotFound, errMultipleEndpointsFound,
errEndpointInUse, errEndpointNotInUse), the two validation errors constructed
in endpoint.go, and opaque errors surfaced by platform collaborators. -/
inductive NetworkError where
  | endpointNotFound
  | multipleEndpointsFound
  | endpointInUse
  | endpointNotInUse
  | invalidEndpoint
  | multipleContainerIDs
  | platformError (msg : String)
deriving DecidableEq

instance {ε α : Type} [DecidableEq ε] [DecidableEq α] : DecidableEq (Except ε α) := fun a b =>
  match a, b with
  | .error e, .error f => decidable_of_iff (e = f) (by simp)
  | .error _, .ok _ => isFalse (by intro h; exact Except.noConfusion h)
  | .ok _, .error _ => isFalse (by intro h; exact Except.noConfusion h)
  | .ok x, .ok y => decidable_of_iff (x = y) (by simp)

/-- Go `strings.Split(s, "-")` on the character list of `s` (the separator is
the single character '-', as in every call site of this file). -/
def splitDash : List Char → List (List Char)
  | [] => [[]]
  | c :: rest =>
    match splitDash rest with
    | [] => [[]]
    | h :: t => if c = '-' then [] :: h :: t else (c :: h) :: t

/-- Strips the trailing two hyphen-delimited segments of a pod name when it has
more than two segments, otherwise returns the name unchanged (endpoint.go
`GetPodNameWithoutSuffix`, using `strings.Split`/`strings.Join` on "-"). -/
def GetPodNameWithoutSuffix (podName : String) : String :=
  let nameSplit := splitDash podName.toList
  if nameSplit.length > 2 then
    (List.intercalate ['-'] (nameSplit.take (nameSplit.length - 2))).asString
  else
    podName

/-- endpoint.go `podNameMatches`: with `doExactMatch` the full names must be
equal; otherwise the query must equal the stored name with its
deployment/replicaset suffix stripped. -/
def podNameMatches (source : String) (actualValue : String) (doExactMatch : Bool) : Bool :=
  if doExactMatch then
    source == actualValue
  else
    actualValue == GetPodNameWithoutSuffix source

/-- Lookup in the endpoint directory: Go map indexing `nw.Endpoints[id]`,
`nil` when absent. -/
def mapLookup : List (String × endpoint) → String → Option endpoint
  | [], _ => none
  | (k, v) :: rest, id => if k = id then some v else mapLookup rest id

/-- Insertion into the endpoint directory: Go map assignment
`nw.Endpoints[k] = v` (replaces the binding of `k` when present). -/
def mapInsert : List (String × endpoint) → String → endpoint → List (String × endpoint)
  | [], k, v => [(k, v)]
  | (k', v') :: rest, k, v =>
    if k' = k then (k, v) :: rest else (k', v') :: mapInsert rest k v

/-- Removal from the endpoint directory: Go `delete(nw.Endpoints, k)`. -/
def mapDelete : List (String × endpoint) → String → List (String × endpoint)
  | [], _ => []
  | (k', v') :: rest, k =>
    if k' = k then mapDelete rest k else (k', v') :: mapDelete rest k

/-- In-place mutation of the stored endpoint's route list: Go
`nw.Endpoints[k].Routes = rs`. -/
def mapSetRoutes : List (String × endpoint) → String → List RouteInfo → List (String × endpoint)
  | [], _, _ => []
  | (k', v') :: rest, k, rs =>
    (k', if k' = k then { v' with Routes := rs } else v') :: mapSetRoutes rest k rs

/-- endpoint.go `getEndpoint`: returns the endpoint with the given ID, or
errEndpointNotFound. -/
def getEndpoint (nw : network) (endpointId : String) : Except NetworkError endpoint :=
  match mapLookup nw.Endpoints endpointId with
  | none => .error .endpointNotFound
  | some ep => .ok ep

/-- The loop-body condition of `getEndpointByPOD`: the stored pod name matches
the query under the chosen mode and the namespaces are equal. -/
def isPodCandidate (podName : String) (podNameSpace : String) (doExactMatchForPodName : Bool)
    (p : String × endpoint) : Bool :=
  podNameMatches p.2.PODName podName doExactMatchForPodName &&
    p.2.PODNameSpace == podNameSpace

/-- The loop of `getEndpointByPOD`: walks the directory entries carrying the
candidate found so far; a second candidate fails immediately with
errMultipleEndpointsFound, and an empty result fails with
errEndpointNotFound. -/
def getEndpointByPODAux (podName : String) (podNameSpace : String)
    (doExactMatchForPodName : Bool) :
    List (String × endpoint) → Option endpoint → Except NetworkError endpoint
  | [], none => .error .endpointNotFound
  | [], some ep => .ok ep
  | p :: rest, acc =>
    if isPodCandidate podName podNameSpace doExactMatchForPodName p then
      match acc with
      | none => getEndpointByPODAux podName podNameSpace doExactMatchForPodName rest (some p.2)
      | some _ => .error .multipleEndpointsFound
    else
      getEndpointByPODAux podName podNameSpace doExactMatchForPodName rest acc

/-- endpoint.go `getEndpointByPOD`. -/
def getEndpointByPOD (nw : network) (podName : String) (podNameSpace : String)
    (doExactMatchForPodName : Bool) : Except NetworkError endpoint :=
  getEndpointByPODAux podName podNameSpace doExactMatchForPodName nw.Endpoints none

/-- endpoint.go `newEndpoint`: the platform realization step
(`newEndpointImpl`) is abstracted as `impl`; on its success the resulting
endpoint is inserted keyed by its `Id`.  Returns the directory after the call
together with the result. -/
def newEndpoint (impl : EndpointInfo → Except NetworkError endpoint) (nw : network)
    (epInfo : EndpointInfo) : network × Except NetworkError endpoint :=
  match impl epInfo with
  | .error e => (nw, .error e)
  | .ok ep => ({ nw with Endpoints := mapInsert nw.Endpoints ep.Id ep }, .ok ep)

/-- endpoint.go `deleteEndpoint`: a missing endpoint is success; platform
teardown (`deleteEndpointImpl`, abstracted as `impl`, `none` = success) must
succeed before the entry is removed.  Returns the directory after the call
together with the error, `none` on success. -/
def deleteEndpoint (impl : endpoint → Option NetworkError) (nw : network)
    (endpointID : String) : network × Option NetworkError :=
  match getEndpoint nw endpointID with
  | .error _ => (nw, none)
  | .ok ep =>
    match impl ep with
    | some e => (nw, some e)
    | none => ({ nw with Endpoints := mapDelete nw.Endpoints endpointID }, none)

/-- endpoint.go `attach`: fails with errEndpointInUse when a sandbox key is
already set, otherwise records the key.  Returns the endpoint after the call
together with the error, `none` on success. -/
def attach (ep : endpoint) (sandboxKey : String) : endpoint × Option NetworkError :=
  if ep.SandboxKey ≠ "" then
    (ep, some .endpointInUse)
  else
    ({ ep with SandboxKey := sandboxKey }, none)

/-- endpoint.go `detach`: fails with errEndpointNotInUse when no sandbox key
is set, otherwise clears it. -/
def detach (ep : endpoint) : endpoint × Option NetworkError :=
  if ep.SandboxKey = "" then
    (ep, some .endpointNotInUse)
  else
    ({ ep with SandboxKey := "" }, none)

/-- endpoint.go `updateEndpoint` (network manager): requires the existing
endpoint to be present by identifier, delegates reconciliation to the
platform (`updateEndpointImpl`, abstracted as `impl`), and on success replaces
only the stored endpoint's route list with the result's routes. -/
def updateEndpoint (impl : network → EndpointInfo → EndpointInfo → Except NetworkError endpoint)
    (nw : network) (existingEpInfo : EndpointInfo) (targetEpInfo : EndpointInfo) :
    network × Option NetworkError :=
  match mapLookup nw.Endpoints existingEpInfo.EndpointID with
  | none => (nw, some .endpointNotFound)
  | some _ =>
    match impl nw existingEpInfo targetEpInfo with
    | .error e => (nw, some e)
    | .ok ep =>
      ({ nw with Endpoints := mapSetRoutes nw.Endpoints existingEpInfo.EndpointID ep.Routes },
        none)

/-- endpoint.go `IsEndpointStateIncomplete`: true when both the platform
handle and the host-visible interface name are missing. -/
def EndpointInfo.IsEndpointStateIncomplete (epInfo : EndpointInfo) : Bool :=
  if epInfo.HNSEndpointID == "" && epInfo.HostIfName == "" then
    true
  else
    false

/-- endpoint.go `validateEndpoint`: the container ID and the NIC type must
both be non-empty. -/
def validateEndpoint (ep : endpoint) : Except NetworkError Unit :=
  if ep.ContainerID == "" || ep.NICType == "" then
    .error .invalidEndpoint
  else
    .ok ()

/-- The loop of `validateEndpoints`, carrying the accumulated set of distinct
container IDs (Go `map[string]bool`, modelled as a duplicate-free list). -/
def validateEndpointsLoop : List endpoint → List String → Except NetworkError Unit
  | [], _ => .ok ()
  | ep :: rest, containerIDs =>
    match validateEndpoint ep with
    | .error e => .error e
    | .ok _ =>
      let ids := if containerIDs.contains ep.ContainerID then containerIDs
                 else containerIDs ++ [ep.ContainerID]
      if ids.length ≠ 1 then .error .multipleContainerIDs
      else validateEndpointsLoop rest ids

/-- endpoint.go `validateEndpoints`: per-endpoint validation of every member
plus the requirement that all members share one container ID. -/
def validateEndpoints (eps : List endpoint) : Except NetworkError Unit :=
  validateEndpointsLoop eps []

/-- A directory entry with pod name "web-7f9c8d-abcde" in namespace
"default", used by the pod-lookup examples. -/
def epWeb : endpoint := { Id := "ep1", PODName := "web-7f9c8d-abcde", PODNameSpace := "default" }

/-- A network whose directory holds exactly `epWeb`. -/
def nwWeb : network := { Id := "net1", Endpoints := [("ep1", epWeb)] }

example : getEndpointByPOD nwWeb "web" "default" false = .ok epWeb := by decide
example : getEndpointByPOD nwWeb "web-7f9c8d-abcde" "default" true = .ok epWeb := by decide
example : getEndpointByPOD nwWeb "web-7f9c8d-abcde" "default" false = .error .endpointNotFound := by decide
example : (attach { Id := "e" } "").2 = none ∧ (attach (attach { Id := "e" } "").1 "x").2 = none := by decide
example :
    validateEndpoints [{ ContainerID := "c1", NICType := "infra" },
      { ContainerID := "c2", NICType := "infra" },
      { ContainerID := "c3", NICType := "" }] = .error .multipleContainerIDs := by decide
example :
    validateEndpoints [{ ContainerID := "c1", NICType := "infra" },
      { ContainerID := "c1", NICType := "" }] = .error .invalidEndpoint := by decide
example : validateEndpoints [] = .ok () := by decide

example : GetPodNameWithoutSuffix "web-7f9c8d-abcde" = "web" := by decide
example : GetPodNameWithoutSuffix "web" = "web" := by decide
example : GetPodNameWithoutSuffix "a-b" = "a-b" := by decide
example : podNameMatches "web-7f9c8d-abcde" "web" false = true := by decide
example : podNameMatches "web-7f9c8d-abcde" "web-7f9c8d-abcde" false = false := by decide
example : podNameMatches "web-7f9c8d-abcde" "web-7f9c8d-abcde" true = true := by decide

theorem mapLookup_mapDelete (m : List (String × endpoint)) (k k' : String) :
    mapLookup (mapDelete m k) k' = if k' = k then none else mapLookup m k' := by
  induction m with
  | nil => simp [mapDelete, mapLookup]
  | cons p rest ih =>
    obtain ⟨k₁, v₁⟩ := p
    by_cases h1 : k₁ = k <;> by_cases h2 : k₁ = k' <;>
      simp_all [mapDelete, mapLookup]

theorem mapLookup_mapInsert (m : List (String × endpoint)) (k k' : String) (v : endpoint) :
    mapLookup (mapInsert m k v) k' = if k = k' then some v else mapLookup m k' := by
  induction m with
  | nil => simp [mapInsert, mapLookup]
  | cons p rest ih =>
    obtain ⟨k₁, v₁⟩ := p
    by_cases h1 : k₁ = k <;> by_cases h2 : k₁ = k' <;> by_cases h3 : k = k' <;>
      simp_all [mapInsert, mapLookup]

theorem mapLookup_mapSetRoutes (m : List (String × endpoint)) (k k' : String)
    (rs : List RouteInfo) :
    mapLookup (mapSetRoutes m k rs) k' =
      if k' = k then (mapLookup m k').map (fun e => { e with Routes := rs })
      else mapLookup m k' := by
  induction m with
  | nil => simp [mapSetRoutes, mapLookup]
  | cons p rest ih =>
    obtain ⟨k₁, v₁⟩ := p
    by_cases h1 : k₁ = k <;> by_cases h2 : k₁ = k' <;> by_cases h3 : k' = k <;>
      simp_all [mapSetRoutes, mapLookup]

/-- C3: deleteEndpoint is idempotent on absent identifiers (success, directory
unchanged); with the endpoint present, a platform teardown failure is returned
and the directory is unchanged; with teardown success, exactly the entry of
the given identifier is removed and the call succeeds. -/
theorem deleteEndpoint_spec (impl : endpoint → Option NetworkError) (nw : network)
    (id : String) :
    (mapLookup nw.Endpoints id = none → deleteEndpoint impl nw id = (nw, none)) ∧
    (∀ ep e, mapLookup nw.Endpoints id = some ep → impl ep = some e →
      deleteEndpoint impl nw id = (nw, some e)) ∧
    (∀ ep, mapLookup nw.Endpoints id = some ep → impl ep = none →
      (deleteEndpoint impl nw id).2 = none ∧
      (deleteEndpoint impl nw id).1.Id = nw.Id ∧
      ∀ k, mapLookup (deleteEndpoint impl nw id).1.Endpoints k =
        if k = id then none else mapLookup nw.Endpoints k) := by
  refine ⟨fun h => ?_, fun ep e hep hi => ?_, fun ep hep hi => ?_⟩
  · simp [deleteEndpoint, getEndpoint, h]
  · simp [deleteEndpoint, getEndpoint, hep, hi]
  · simp [deleteEndpoint, getEndpoint, hep, hi, mapLookup_mapDelete]

/-- C3 witness: on a one-entry directory, deleting a missing identifier
succeeds leaving the directory unchanged, a failing teardown is propagated
with the entry retained, and a successful teardown removes the entry. -/
theorem deleteEndpoint_spec_witness :
    deleteEndpoint (fun _ => none) nwWeb "nope" = (nwWeb, none) ∧
    deleteEndpoint (fun _ => some (.platformError "boom")) nwWeb "ep1" =
      (nwWeb, some (.platformError "boom")) ∧
    mapLookup (deleteEndpoint (fun _ => none) nwWeb "ep1").1.Endpoints "ep1" = none := by
  refine ⟨?_, ?_, ?_⟩
  · exact (deleteEndpoint_spec (fun _ => none) nwWeb "nope").1 (by decide)
  · exact (deleteEndpoint_spec (fun _ => some (.platformError "boom")) nwWeb "ep1").2.1
      epWeb (.platformError "boom") (by decide) rfl
  · have h := ((deleteEndpoint_spec (fun _ => none) nwWeb "ep1").2.2 epWeb (by decide) rfl).2.2 "ep1"
    simpa using h

/-- C4: a failed platform realization step makes newEndpoint return the error
with the directory exactly as before; a successful one returns the resulting
endpoint and inserts it keyed by its identifier, leaving every other entry
unchanged. -/
theorem newEndpoint_spec (impl : EndpointInfo → Except NetworkError endpoint)
    (nw : network) (epInfo : EndpointInfo) :
    (∀ e, impl epInfo = .error e → newEndpoint impl nw epInfo = (nw, .error e)) ∧
    (∀ ep, impl epInfo = .ok ep →
      (newEndpoint impl nw epInfo).2 = .ok ep ∧
      (newEndpoint impl nw epInfo).1.Id = nw.Id ∧
      ∀ k, mapLookup (newEndpoint impl nw epInfo).1.Endpoints k =
        if ep.Id = k then some ep else mapLookup nw.Endpoints k) := by
  refine ⟨fun e he => ?_, fun ep hep => ?_⟩
  · simp [newEndpoint, he]
  · refine ⟨by simp [newEndpoint, hep], by simp [newEndpoint, hep], fun k => ?_⟩
    simp [newEndpoint, hep, mapLookup_mapInsert]

/-- C4 witness: a failing realization inserts nothing; a successful one makes
the endpoint retrievable under its identifier. -/
theorem newEndpoint_spec_witness :
    newEndpoint (fun _ => .error (.platformError "boom")) { Id := "net1" } {} =
      ({ Id := "net1" }, .error (.platformError "boom")) ∧
    mapLookup (newEndpoint (fun _ => .ok epWeb) { Id := "net1" } {}).1.Endpoints "ep1" =
      some epWeb := by
  refine ⟨?_, ?_⟩
  · exact (newEndpoint_spec (fun _ => .error (.platformError "boom")) { Id := "net1" } {}).1
      (.platformError "boom") rfl
  · have h := ((newEndpoint_spec (fun _ => .ok epWeb) { Id := "net1" } {}).2 epWeb rfl).2.2 "ep1"
    simpa [epWeb] using h

/-- C5: when updateEndpoint succeeds on a tracked endpoint, the stored
endpoint is replaced by a copy differing only in its route list (set to the
platform result's routes), and every other directory entry is unchanged. -/
theorem updateEndpoint_frame
    (impl : network → EndpointInfo → EndpointInfo → Except NetworkError endpoint)
    (nw : network) (existingEpInfo targetEpInfo : EndpointInfo) (epOld epNew : endpoint)
    (hlk : mapLookup nw.Endpoints existingEpInfo.EndpointID = some epOld)
    (hok : impl nw existingEpInfo targetEpInfo = .ok epNew) :
    (updateEndpoint impl nw existingEpInfo targetEpInfo).2 = none ∧
    (updateEndpoint impl nw existingEpInfo targetEpInfo).1.Id = nw.Id ∧
    mapLookup (updateEndpoint impl nw existingEpInfo targetEpInfo).1.Endpoints
      existingEpInfo.EndpointID = some { epOld with Routes := epNew.Routes } ∧
    ∀ k, k ≠ existingEpInfo.EndpointID →
      mapLookup (updateEndpoint impl nw existingEpInfo targetEpInfo).1.Endpoints k =
        mapLookup nw.Endpoints k := by
  refine ⟨?_, ?_, ?_, fun k hk => ?_⟩
  · simp [updateEndpoint, hlk, hok]
  · simp [updateEndpoint, hlk, hok]
  · simp [updateEndpoint, hlk, hok, mapLookup_mapSetRoutes]
  · simp [updateEndpoint, hlk, hok, mapLookup_mapSetRoutes, hk]

/-- C5 witness: a successful route-only update on a one-entry directory
stores the old endpoint with only its routes replaced. -/
theorem updateEndpoint_frame_witness :
    mapLookup
      (updateEndpoint (fun _ _ _ => .ok { Id := "ep1", Routes := [{ DevName := "eth0" }] })
        nwWeb { EndpointID := "ep1" } {}).1.Endpoints "ep1" =
      some { epWeb with Routes := [{ DevName := "eth0" }] } := by
  have h := updateEndpoint_frame
    (fun _ _ _ => .ok { Id := "ep1", Routes := [{ DevName := "eth0" }] })
    nwWeb { EndpointID := "ep1" } {} epWeb { Id := "ep1", Routes := [{ DevName := "eth0" }] }
    (by decide) rfl
  simpa using h.2.2.1

/-- C6: updateEndpoint on an untracked identifier fails with EndpointNotFound
and leaves the directory unchanged; a failing platform reconciliation step is
propagated and the directory (routes included) is unchanged. -/
theorem updateEndpoint_error_spec
    (impl : network → EndpointInfo → EndpointInfo → Except NetworkError endpoint)
    (nw : network) (existingEpInfo targetEpInfo : EndpointInfo) :
    (mapLookup nw.Endpoints existingEpInfo.EndpointID = none →
      updateEndpoint impl nw existingEpInfo targetEpInfo = (nw, some .endpointNotFound)) ∧
    (∀ ep e, mapLookup nw.Endpoints existingEpInfo.EndpointID = some ep →
      impl nw existingEpInfo targetEpInfo = .error e →
      updateEndpoint impl nw existingEpInfo targetEpInfo = (nw, some e)) := by
  refine ⟨fun h => ?_, fun ep e hep he => ?_⟩
  · simp [updateEndpoint, h]
  · simp [updateEndpoint, hep, he]

/-- C6 witness: an update keyed by an absent identifier fails with
EndpointNotFound leaving the one-entry directory unchanged, and a platform
failure on a present identifier is returned with the directory unchanged. -/
theorem updateEndpoint_error_spec_witness :
    updateEndpoint (fun _ _ _ => .ok {}) nwWeb { EndpointID := "nope" } {} =
      (nwWeb, some .endpointNotFound) ∧
    updateEndpoint (fun _ _ _ => .error (.platformError "boom")) nwWeb
      { EndpointID := "ep1" } {} = (nwWeb, some (.platformError "boom")) := by
  refine ⟨?_, ?_⟩
  · exact (updateEndpoint_error_spec (fun _ _ _ => .ok {}) nwWeb
      { EndpointID := "nope" } {}).1 (by decide)
  · exact (updateEndpoint_error_spec (fun _ _ _ => .error (.platformError "boom")) nwWeb
      { EndpointID := "ep1" } {}).2 epWeb (.platformError "boom") (by decide) rfl

/-- C7 counterexample: attach with an empty sandbox key succeeds and leaves
the endpoint observably unattached, so an attach immediately followed by an
attach can succeed twice — refuting "attach immediately followed by attach
fails" as universally stated. -/
theorem attach_attach_empty_key_cex :
    (attach { Id := "ep0" : endpoint } "").2 = none ∧
    (attach (attach { Id := "ep0" : endpoint } "").1 "key1").2 = none := by decide

/-- C7 (amended): attach fails with AlreadyAttached exactly when the sandbox
key is already non-empty, leaving the endpoint unchanged, and otherwise
records the argument; detach fails with NotAttached exactly when the key is
empty and otherwise clears it; attach with a non-empty key immediately
followed by attach fails, and detach immediately followed by detach fails. -/
theorem attach_detach_spec (ep : endpoint) (k k' : String) :
    (ep.SandboxKey ≠ "" → attach ep k = (ep, some .endpointInUse)) ∧
    (ep.SandboxKey = "" → attach ep k = ({ ep with SandboxKey := k }, none)) ∧
    (ep.SandboxKey = "" → detach ep = (ep, some .endpointNotInUse)) ∧
    (ep.SandboxKey ≠ "" → detach ep = ({ ep with SandboxKey := "" }, none)) ∧
    (k ≠ "" → (attach (attach ep k).1 k').2 = some .endpointInUse) ∧
    ((detach (detach ep).1).2 = some .endpointNotInUse) := by
  refine ⟨fun h => ?_, fun h => ?_, fun h => ?_, fun h => ?_, fun hk => ?_, ?_⟩
  · simp [attach, h]
  · simp [attach, h]
  · simp [detach, h]
  · simp [detach, h]
  · by_cases h : ep.SandboxKey = "" <;> simp [attach, h, hk]
  · by_cases h : ep.SandboxKey = "" <;> simp [detach, h]

/-- C7 witness: on concrete endpoints, a second attach with a non-empty key
fails with AlreadyAttached, a second detach fails with NotAttached, attach on
an attached endpoint fails, and detach on a fresh endpoint fails. -/
theorem attach_detach_spec_witness :
    attach { Id := "ep0", SandboxKey := "sb" : endpoint } "k" =
      ({ Id := "ep0", SandboxKey := "sb" : endpoint }, some .endpointInUse) ∧
    attach { Id := "ep0" : endpoint } "sb" =
      ({ Id := "ep0", SandboxKey := "sb" : endpoint }, none) ∧
    detach { Id := "ep0" : endpoint } =
      ({ Id := "ep0" : endpoint }, some .endpointNotInUse) ∧
    detach { Id := "ep0", SandboxKey := "sb" : endpoint } =
      ({ Id := "ep0" : endpoint }, none) ∧
    (attach (attach { Id := "ep0" : endpoint } "sb").1 "k").2 = some .endpointInUse ∧
    (detach (detach { Id := "ep0", SandboxKey := "sb" : endpoint }).1).2 =
      some .endpointNotInUse := by
  have h1 := attach_detach_spec { Id := "ep0", SandboxKey := "sb" : endpoint } "k" "k"
  have h2 := attach_detach_spec { Id := "ep0" : endpoint } "sb" "k"
  exact ⟨h1.1 (by decide), h2.2.1 rfl, h2.2.2.1 rfl, h1.2.2.2.1 (by decide),
    h2.2.2.2.2.1 (by decide), h1.2.2.2.2.2⟩

/-- C9: an EndpointInfo snapshot is reported incomplete exactly when both its
platform handle (HNSEndpointID) and its host-visible interface name
(HostIfName) are empty; any other combination reports false. -/
theorem isEndpointStateIncomplete_spec (epInfo : EndpointInfo) :
    (epInfo.HNSEndpointID = "" ∧ epInfo.HostIfName = "" →
      epInfo.IsEndpointStateIncomplete = true) ∧
    (¬(epInfo.HNSEndpointID = "" ∧ epInfo.HostIfName = "") →
      epInfo.IsEndpointStateIncomplete = false) := by
  constructor
  · rintro ⟨h1, h2⟩
    simp [EndpointInfo.IsEndpointStateIncomplete, h1, h2]
  · intro h
    rcases not_and_or.mp h with h1 | h1 <;>
      simp [EndpointInfo.IsEndpointStateIncomplete, h1]

/-- C9 witness: both fields empty reports incomplete; each of the other three
combinations reports complete. -/
theorem isEndpointStateIncomplete_spec_witness :
    EndpointInfo.IsEndpointStateIncomplete {} = true ∧
    EndpointInfo.IsEndpointStateIncomplete { HNSEndpointID := "h" } = false ∧
    EndpointInfo.IsEndpointStateIncomplete { HostIfName := "veth0" } = false ∧
    EndpointInfo.IsEndpointStateIncomplete { HNSEndpointID := "h", HostIfName := "veth0" } =
      false := by
  exact ⟨(isEndpointStateIncomplete_spec {}).1 ⟨rfl, rfl⟩,
    (isEndpointStateIncomplete_spec { HNSEndpointID := "h" }).2 (by simp),
    (isEndpointStateIncomplete_spec { HostIfName := "veth0" }).2 (by simp),
    (isEndpointStateIncomplete_spec { HNSEndpointID := "h", HostIfName := "veth0" }).2
      (by simp)⟩

theorem getEndpointByPODAux_of_filter_nil (pn ns : String) (ex : Bool)
    (l : List (String × endpoint)) (h : l.filter (isPodCandidate pn ns ex) = []) :
    getEndpointByPODAux pn ns ex l none = .error .endpointNotFound ∧
    ∀ e, getEndpointByPODAux pn ns ex l (some e) = .ok e := by
  induction l with
  | nil => exact ⟨rfl, fun e => rfl⟩
  | cons p rest ih =>
    cases hc : isPodCandidate pn ns ex p with
    | true => simp [List.filter_cons, hc] at h
    | false =>
      rw [List.filter_cons, if_neg (by simp [hc])] at h
      exact ⟨by simp [getEndpointByPODAux, hc, (ih h).1],
        fun e => by simp [getEndpointByPODAux, hc, (ih h).2 e]⟩

theorem getEndpointByPODAux_some_of_filter_ne_nil (pn ns : String) (ex : Bool)
    (l : List (String × endpoint)) (h : l.filter (isPodCandidate pn ns ex) ≠ []) :
    ∀ e, getEndpointByPODAux pn ns ex l (some e) = .error .multipleEndpointsFound := by
  induction l with
  | nil => exact absurd rfl h
  | cons p rest ih =>
    intro e
    cases hc : isPodCandidate pn ns ex p with
    | true => simp [getEndpointByPODAux, hc]
    | false =>
      have h' : rest.filter (isPodCandidate pn ns ex) ≠ [] := by
        simpa [List.filter_cons, hc] using h
      simp [getEndpointByPODAux, hc, ih h' e]

theorem getEndpointByPODAux_none_of_two (pn ns : String) (ex : Bool)
    (l : List (String × endpoint))
    (h : 2 ≤ (l.filter (isPodCandidate pn ns ex)).length) :
    getEndpointByPODAux pn ns ex l none = .error .multipleEndpointsFound := by
  induction l with
  | nil => simp at h
  | cons p rest ih =>
    cases hc : isPodCandidate pn ns ex p with
    | true =>
      have h1 : rest.filter (isPodCandidate pn ns ex) ≠ [] := by
        have hl : 1 ≤ (rest.filter (isPodCandidate pn ns ex)).length := by
          have := h
          rw [List.filter_cons, if_pos (by simp [hc])] at this
          simpa using this
        exact List.ne_nil_of_length_pos hl
      simp [getEndpointByPODAux, hc,
        getEndpointByPODAux_some_of_filter_ne_nil pn ns ex rest h1 p.2]
    | false =>
      have h2 : 2 ≤ (rest.filter (isPodCandidate pn ns ex)).length := by
        have := h
        rwa [List.filter_cons, if_neg (by simp [hc])] at this
      simp [getEndpointByPODAux, hc, ih h2]

/-- C1: an endpoint is a candidate of a non-exact pod query exactly when its
stored pod name with the trailing two hyphen-delimited segments stripped
equals the query and the namespaces are equal; with an exact query, exactly
when the full names and namespaces are equal; with two or more candidates in
the directory the lookup fails with AmbiguousMatch, and with none it fails
with EndpointNotFound. -/
theorem getEndpointByPOD_spec (nw : network) (pn ns : String) (ex : Bool) :
    (∀ p : String × endpoint, isPodCandidate pn ns false p = true ↔
      (pn = GetPodNameWithoutSuffix p.2.PODName ∧ p.2.PODNameSpace = ns)) ∧
    (∀ p : String × endpoint, isPodCandidate pn ns true p = true ↔
      (p.2.PODName = pn ∧ p.2.PODNameSpace = ns)) ∧
    ((nw.Endpoints.filter (isPodCandidate pn ns ex)).length = 0 →
      getEndpointByPOD nw pn ns ex = .error .endpointNotFound) ∧
    (2 ≤ (nw.Endpoints.filter (isPodCandidate pn ns ex)).length →
      getEndpointByPOD nw pn ns ex = .error .multipleEndpointsFound) := by
  refine ⟨fun p => ?_, fun p => ?_, fun h => ?_, fun h => ?_⟩
  · simp [isPodCandidate, podNameMatches]
  · simp [isPodCandidate, podNameMatches]
  · have h' : nw.Endpoints.filter (isPodCandidate pn ns ex) = [] :=
      List.eq_nil_of_length_eq_zero h
    exact (getEndpointByPODAux_of_filter_nil pn ns ex nw.Endpoints h').1
  · exact getEndpointByPODAux_none_of_two pn ns ex nw.Endpoints h

/-- A second directory entry whose pod name shares the stripped base "web"
with `epWeb`, in the same namespace. -/
def epWeb2 : endpoint := { Id := "ep2", PODName := "web-7f9c8d-fghij", PODNameSpace := "default" }

/-- A network holding two endpoints whose pod names both strip to "web". -/
def nwAmb : network := { Id := "net1", Endpoints := [("ep1", epWeb), ("ep2", epWeb2)] }

/-- C1 witness: on a one-entry directory a query matching nothing fails with
EndpointNotFound, and on a two-candidate directory the base-name query fails
with AmbiguousMatch. -/
theorem getEndpointByPOD_spec_witness :
    getEndpointByPOD nwWeb "nope" "default" false = .error .endpointNotFound ∧
    getEndpointByPOD nwAmb "web" "default" false = .error .multipleEndpointsFound := by
  constructor
  · exact (getEndpointByPOD_spec nwWeb "nope" "default" false).2.2.1 (by decide)
  · exact (getEndpointByPOD_spec nwAmb "web" "default" false).2.2.2 (by decide)

/-- C2 counterexample: on a directory holding exactly one endpoint with pod
name "web-7f9c8d-abcde" in namespace "default", the lookup with the full
stored pod name and exactMatch=false does not return the endpoint: it fails
with EndpointNotFound, because the non-exact mode compares the query against
the stored name with its suffix stripped ("web"). -/
theorem getEndpointByPOD_fullname_nonexact_cex :
    getEndpointByPOD nwWeb "web-7f9c8d-abcde" "default" false =
      .error .endpointNotFound := by decide

/-- C2 (amended): for a directory containing one endpoint with pod name
"web-7f9c8d-abcde" in namespace "default", the lookup with the stripped base
name "web" and exactMatch=false returns that endpoint, while the lookup with
the full stored pod name and exactMatch=false fails with EndpointNotFound. -/
theorem getEndpointByPOD_basename_example :
    getEndpointByPOD nwWeb "web" "default" false = .ok epWeb ∧
    getEndpointByPOD nwWeb "web-7f9c8d-abcde" "default" false =
      .error .endpointNotFound := by decide

theorem validateEndpoint_ok_iff (ep : endpoint) :
    validateEndpoint ep = .ok () ↔ (¬ep.ContainerID = "" ∧ ¬ep.NICType = "") := by
  by_cases h : (ep.ContainerID == "" || ep.NICType == "") = true
  · simp only [validateEndpoint, if_pos h]
    simp only [Bool.or_eq_true, beq_iff_eq] at h
    constructor
    · intro hh; exact Except.noConfusion hh
    · rintro ⟨h1, h2⟩; rcases h with h | h <;> simp_all
  · simp only [validateEndpoint, if_neg h]
    simp only [Bool.or_eq_true, beq_iff_eq] at h
    push_neg at h
    simp [h.1, h.2]

theorem validateEndpoint_error_eq (ep : endpoint) (e : NetworkError)
    (h : validateEndpoint ep = .error e) : e = .invalidEndpoint := by
  by_cases hc : (ep.ContainerID == "" || ep.NICType == "") = true
  · rw [validateEndpoint, if_pos hc] at h
    exact (Except.error.inj h).symm
  · rw [validateEndpoint, if_neg hc] at h
    exact Except.noConfusion h

theorem validateEndpointsLoop_ok_of (rest : List endpoint) (c : String)
    (h : ∀ ep ∈ rest, validateEndpoint ep = .ok () ∧ ep.ContainerID = c) :
    validateEndpointsLoop rest [c] = .ok () := by
  induction rest with
  | nil => rfl
  | cons ep t ih =>
    obtain ⟨hv, hc⟩ := h ep (List.mem_cons_self ep t)
    simp only [validateEndpointsLoop, hv]
    rw [hc]
    simp only [List.contains_cons, beq_self_eq_true, Bool.true_or, if_pos]
    simp only [List.length_singleton, ne_eq, not_true_eq_false, if_false]
    exact ih fun ep' h' => h ep' (List.mem_cons_of_mem ep h')

theorem validateEndpointsLoop_ok_elim (rest : List endpoint) (c : String)
    (h : validateEndpointsLoop rest [c] = .ok ()) :
    ∀ ep ∈ rest, validateEndpoint ep = .ok () ∧ ep.ContainerID = c := by
  induction rest with
  | nil => intro ep hm; exact absurd hm (List.not_mem_nil ep)
  | cons ep t ih =>
    rw [validateEndpointsLoop] at h
    cases hv : validateEndpoint ep with
    | error e => rw [hv] at h; exact Except.noConfusion h
    | ok u =>
      rw [hv] at h
      by_cases hc : ep.ContainerID = c
      · simp only [hc] at h
        simp at h
        intro ep' hm
        rcases List.mem_cons.mp hm with he | ht
        · subst he; cases u; exact ⟨hv, hc⟩
        · exact ih h ep' ht
      · simp [hc] at h

theorem validateEndpointsLoop_invalid (rest : List endpoint) (c : String)
    (hsame : ∀ ep ∈ rest, ep.ContainerID = c)
    (hex : ∃ ep ∈ rest, ¬validateEndpoint ep = .ok ()) :
    validateEndpointsLoop rest [c] = .error .invalidEndpoint := by
  induction rest with
  | nil => obtain ⟨ep, hm, _⟩ := hex; exact absurd hm (List.not_mem_nil ep)
  | cons ep t ih =>
    cases hv : validateEndpoint ep with
    | error e =>
      rw [validateEndpointsLoop, hv, validateEndpoint_error_eq ep e hv]
    | ok u =>
      have hc : ep.ContainerID = c := hsame ep (List.mem_cons_self ep t)
      simp only [validateEndpointsLoop, hv]
      rw [hc]
      simp only [List.contains_cons, beq_self_eq_true, Bool.true_or, if_pos]
      simp only [List.length_singleton, ne_eq, not_true_eq_false, if_false]
      refine ih (fun ep' h' => hsame ep' (List.mem_cons_of_mem ep h')) ?_
      obtain ⟨ep', hm, hne⟩ := hex
      rcases List.mem_cons.mp hm with he | ht
      · subst he; cases u; exact absurd hv hne
      · exact ⟨ep', ht, hne⟩

theorem validateEndpointsLoop_multi (rest : List endpoint) (c : String)
    (hval : ∀ ep ∈ rest, validateEndpoint ep = .ok ())
    (hex : ∃ ep ∈ rest, ep.ContainerID ≠ c) :
    validateEndpointsLoop rest [c] = .error .multipleContainerIDs := by
  induction rest with
  | nil => obtain ⟨ep, hm, _⟩ := hex; exact absurd hm (List.not_mem_nil ep)
  | cons ep t ih =>
    have hv : validateEndpoint ep = .ok () := hval ep (List.mem_cons_self ep t)
    simp only [validateEndpointsLoop, hv]
    by_cases hc : ep.ContainerID = c
    · rw [hc]
      simp only [List.contains_cons, beq_self_eq_true, Bool.true_or, if_pos]
      simp only [List.length_singleton, ne_eq, not_true_eq_false, if_false]
      refine ih (fun ep' h' => hval ep' (List.mem_cons_of_mem ep h')) ?_
      obtain ⟨ep', hm, hne⟩ := hex
      rcases List.mem_cons.mp hm with he | ht
      · subst he; exact absurd hc hne
      · exact ⟨ep', ht, hne⟩
    · simp [hc]

theorem validateEndpoints_cons (ep : endpoint) (rest : List endpoint) :
    validateEndpoints (ep :: rest) =
      match validateEndpoint ep with
      | .error e => .error e
      | .ok _ => validateEndpointsLoop rest [ep.ContainerID] := by
  cases hv : validateEndpoint ep <;>
    simp [validateEndpoints, validateEndpointsLoop, hv]

/-- C8 counterexample: a batch whose first two members carry distinct
container IDs and whose last member has an empty NIC type fails with
MultipleContainerIDs, not InvalidEndpoint — the accumulated-set check fires
before the invalid member is reached, refuting "fails with InvalidEndpoint
if some member has an empty NIC type" as universally stated. -/
theorem validateEndpoints_mixed_cex :
    validateEndpoints [{ ContainerID := "c1", NICType := "infra" },
      { ContainerID := "c2", NICType := "infra" },
      { ContainerID := "c3", NICType := "" }] = .error .multipleContainerIDs ∧
    ({ ContainerID := "c3", NICType := "" } : endpoint).NICType = "" := by decide

/-- C8 (amended): batch validation succeeds exactly when every member passes
per-endpoint validation and all members share one container identifier; when
all members share one container identifier and some member is invalid it
fails with InvalidEndpoint; when every member is valid and two members carry
distinct container identifiers it fails with MultipleContainerIDs (when both
violations coexist, the one encountered first in scan order is reported). -/
theorem validateEndpoints_spec (eps : List endpoint) :
    (validateEndpoints eps = .ok () ↔
      ((∀ ep ∈ eps, validateEndpoint ep = .ok ()) ∧
        ∀ a ∈ eps, ∀ b ∈ eps, a.ContainerID = b.ContainerID)) ∧
    ((∀ a ∈ eps, ∀ b ∈ eps, a.ContainerID = b.ContainerID) →
      (∃ ep ∈ eps, ¬validateEndpoint ep = .ok ()) →
      validateEndpoints eps = .error .invalidEndpoint) ∧
    ((∀ ep ∈ eps, validateEndpoint ep = .ok ()) →
      (∃ a ∈ eps, ∃ b ∈ eps, a.ContainerID ≠ b.ContainerID) →
      validateEndpoints eps = .error .multipleContainerIDs) := by
  cases eps with
  | nil =>
    refine ⟨by simp [validateEndpoints, validateEndpointsLoop], ?_, ?_⟩
    · rintro _ ⟨ep, hm, _⟩; exact absurd hm (List.not_mem_nil ep)
    · rintro _ ⟨a, hm, _⟩; exact absurd hm (List.not_mem_nil a)
  | cons ep rest =>
    refine ⟨?_, ?_, ?_⟩
    · rw [validateEndpoints_cons]
      cases hv : validateEndpoint ep with
      | error e =>
        constructor
        · intro hh; exact Except.noConfusion hh
        · rintro ⟨hval, _⟩
          rw [hval ep (List.mem_cons_self ep rest)] at hv
          exact Except.noConfusion hv
      | ok u =>
        cases u
        constructor
        · intro hh
          have hall := validateEndpointsLoop_ok_elim rest ep.ContainerID hh
          refine ⟨fun ep' hm => ?_, fun a ha b hb => ?_⟩
          · rcases List.mem_cons.mp hm with he | ht
            · subst he; exact hv
            · exact (hall ep' ht).1
          · have ida : a.ContainerID = ep.ContainerID := by
              rcases List.mem_cons.mp ha with he | ht
              · subst he; rfl
              · exact (hall a ht).2
            have idb : b.ContainerID = ep.ContainerID := by
              rcases List.mem_cons.mp hb with he | ht
              · subst he; rfl
              · exact (hall b ht).2
            rw [ida, idb]
        · rintro ⟨hval, hsame⟩
          apply validateEndpointsLoop_ok_of
          intro ep' hm
          exact ⟨hval ep' (List.mem_cons_of_mem ep hm),
            hsame ep' (List.mem_cons_of_mem ep hm) ep (List.mem_cons_self ep rest)⟩
    · intro hsame hex
      rw [validateEndpoints_cons]
      cases hv : validateEndpoint ep with
      | error e => rw [validateEndpoint_error_eq ep e hv]
      | ok u =>
        apply validateEndpointsLoop_invalid
        · intro ep' hm
          exact hsame ep' (List.mem_cons_of_mem ep hm) ep (List.mem_cons_self ep rest)
        · obtain ⟨ep', hm, hne⟩ := hex
          rcases List.mem_cons.mp hm with he | ht
          · subst he; cases u; exact absurd hv hne
          · exact ⟨ep', ht, hne⟩
    · intro hval hex
      rw [validateEndpoints_cons]
      have hv : validateEndpoint ep = .ok () := hval ep (List.mem_cons_self ep rest)
      rw [hv]
      apply validateEndpointsLoop_multi
      · intro ep' hm
        exact hval ep' (List.mem_cons_of_mem ep hm)
      · obtain ⟨a, ha, b, hb, hne⟩ := hex
        by_cases hac : a.ContainerID = ep.ContainerID
        · have hbc : b.ContainerID ≠ ep.ContainerID := fun hh => hne (hac.trans hh.symm)
          have hbt : b ∈ rest := by
            rcases List.mem_cons.mp hb with he | ht
            · subst he; exact absurd rfl hbc
            · exact ht
          exact ⟨b, hbt, hbc⟩
        · have hat : a ∈ rest := by
            rcases List.mem_cons.mp ha with he | ht
            · subst he; exact absurd rfl hac
            · exact ht
          exact ⟨a, hat, hac⟩

/-- C8 witness: a same-container batch with one empty NIC type fails with
InvalidEndpoint, an all-valid two-container batch fails with
MultipleContainerIDs, and a valid single-container batch succeeds. -/
theorem validateEndpoints_spec_witness :
    validateEndpoints [{ ContainerID := "c1", NICType := "infra" },
      { ContainerID := "c1", NICType := "" }] = .error .invalidEndpoint ∧
    validateEndpoints [{ ContainerID := "c1", NICType := "infra" },
      { ContainerID := "c2", NICType := "infra" }] = .error .multipleContainerIDs ∧
    validateEndpoints [{ ContainerID := "c1", NICType := "infra" }] = .ok () := by
  refine ⟨?_, ?_, ?_⟩
  · exact (validateEndpoints_spec _).2.1 (by decide) (by decide)
  · exact (validateEndpoints_spec _).2.2 (by decide) (by decide)
  · exact (validateEndpoints_spec _).1.mpr (by decide)

theorem splitDash_ne_nil (l : List Char) : splitDash l ≠ [] := by
  cases l with
  | nil => simp [splitDash]
  | cons c rest =>
    cases h : splitDash rest with
    | nil => simp [splitDash, h]
    | cons hd tl => by_cases hc : c = '-' <;> simp [splitDash, h, hc]

theorem splitDash_length (l : List Char) :
    (splitDash l).length = l.count '-' + 1 := by
  induction l with
  | nil => simp [splitDash]
  | cons c rest ih =>
    cases h : splitDash rest with
    | nil => exact absurd h (splitDash_ne_nil rest)
    | cons hd tl =>
      rw [h] at ih
      simp only [List.length_cons] at ih
      by_cases hc : c = '-'
      · simp [splitDash, h, hc, List.count_cons]
        omega
      · simp [splitDash, h, hc, List.count_cons, Ne.symm hc]
        omega

theorem take_length_sub_two {α : Type} (l : List α) :
    l.take (l.length - 2) = l.dropLast.dropLast := by
  simp only [List.dropLast_eq_take, List.take_take, List.length_take]
  congr 1
  omega

/-- C10: a pod name splitting into at most two hyphen-delimited segments
(at most one hyphen) is returned unchanged by GetPodNameWithoutSuffix; a name
with three or more segments is returned with exactly its last two segments
removed, rejoined with '-'. -/
theorem getPodNameWithoutSuffix_spec (s : String) :
    ((splitDash s.toList).length = s.toList.count '-' + 1) ∧
    (s.toList.count '-' ≤ 1 → GetPodNameWithoutSuffix s = s) ∧
    (2 ≤ s.toList.count '-' →
      GetPodNameWithoutSuffix s =
        (List.intercalate ['-'] ((splitDash s.toList).dropLast.dropLast)).asString) := by
  refine ⟨splitDash_length s.toList, fun h => ?_, fun h => ?_⟩
  · have hlen : ¬(splitDash s.toList).length > 2 := by
      rw [splitDash_length]; omega
    simp only [GetPodNameWithoutSuffix, if_neg hlen]
  · have hlen : (splitDash s.toList).length > 2 := by
      rw [splitDash_length]; omega
    simp only [GetPodNameWithoutSuffix, if_pos hlen]
    rw [take_length_sub_two]

/-- C10 witness: "web-7f9c8d-abcde" (two hyphens) loses its last two segments,
and "web-a" (one hyphen) is returned unchanged. -/
theorem getPodNameWithoutSuffix_spec_witness :
    GetPodNameWithoutSuffix "web-7f9c8d-abcde" =
      (List.intercalate ['-']
        ((splitDash "web-7f9c8d-abcde".toList).dropLast.dropLast)).asString ∧
    GetPodNameWithoutSuffix "web-a" = "web-a" := by
  exact ⟨(getPodNameWithoutSuffix_spec "web-7f9c8d-abcde").2.2 (by decide),
    (getPodNameWithoutSuffix_spec "web-a").2.1 (by decide)⟩

end ACN
